import Mathlib

/-!
Verification development for the physac-rs 2D rigid-body physics engine.

The repository ships a demonstration program (`examples/physics_friction`)
that drives the engine through its public API.  The engine core itself
(bodies, registry, fixed-timestep loop, collision detection, impulse-based
contact resolution) is specified in the repository's design document; the
definitions below are a shallow embedding of that engine, modelled from the
specification, over exact rational arithmetic.  Quantities the specification
describes with irrational operations (unit normalization of vectors,
trigonometric rotation, the constant pi) are represented by exact rational
counterparts; each such modelling choice is recorded in the doc comment of
the definition that makes it, and no theorem below depends on the numeric
value such a choice fixes.
-/

namespace Physac

/-- Modelled from the spec: 2D vector (math utilities component); the engine
core is absent from the sources, so coordinates are exact rationals. -/
structure Vector2 where
  x : ℚ
  y : ℚ
deriving DecidableEq, Repr

instance : Add Vector2 := ⟨fun a b => ⟨a.x + b.x, a.y + b.y⟩⟩

instance : Sub Vector2 := ⟨fun a b => ⟨a.x - b.x, a.y - b.y⟩⟩

instance : Neg Vector2 := ⟨fun a => ⟨-a.x, -a.y⟩⟩

instance : Zero Vector2 := ⟨⟨0, 0⟩⟩

/-- Scale a vector by a rational factor. -/
def Vector2.scale (v : Vector2) (k : ℚ) : Vector2 := ⟨v.x * k, v.y * k⟩

/-- Dot product. -/
def Vector2.dot (a b : Vector2) : ℚ := a.x * b.x + a.y * b.y

/-- 2D cross product (scalar). -/
def Vector2.cross (a b : Vector2) : ℚ := a.x * b.y - a.y * b.x

/-- Cross product of a scalar (angular velocity) with a vector, giving the
tangential velocity contribution at an offset. -/
def Vector2.crossSV (s : ℚ) (v : Vector2) : Vector2 := ⟨-s * v.y, s * v.x⟩

/-- Squared euclidean length.  Modelled from the spec: lengths are compared
through their squares so that every comparison stays in exact rationals. -/
def Vector2.lenSq (v : Vector2) : ℚ := v.x * v.x + v.y * v.y

/-- Perpendicular (tangent) direction of a vector. -/
def Vector2.perp (v : Vector2) : Vector2 := ⟨-v.y, v.x⟩

/-- Modelled from the spec: the cached rotation matrix stored with a body's
orientation. -/
structure Mat2 where
  m00 : ℚ
  m01 : ℚ
  m10 : ℚ
  m11 : ℚ
deriving DecidableEq, Repr

/-- Identity rotation. -/
def Mat2.identity : Mat2 := ⟨1, 0, 0, 1⟩

/-- Matrix-vector product. -/
def Mat2.mulVec (m : Mat2) (v : Vector2) : Vector2 :=
  ⟨m.m00 * v.x + m.m01 * v.y, m.m10 * v.x + m.m11 * v.y⟩

/-- Modelled from the spec: a Shape is a closed tagged variant over
circle (radius) and convex polygon (ordered local-space vertex list). -/
inductive Shape where
  | circle (radius : ℚ)
  | polygon (vertices : List Vector2)
deriving DecidableEq, Repr

/-- Modelled from the spec: error kinds reported by the engine as explicit
result values (the fourth kind of the spec, reported before initialization,
concerns no verified claim and is omitted). -/
inductive PhysicsError where
  | CapacityExceeded
  | InvalidShape
  | InvalidIdentity
deriving DecidableEq, Repr

/-- Modelled from the spec: a rigid body (the Body component), with pose,
velocity, force/torque accumulators, mass properties, material coefficients
and the enabled / use-gravity flags.  The engine core is absent from the
sources, so the record follows the spec's attribute list. -/
structure PhysicsBody where
  id : ℕ
  enabled : Bool
  position : Vector2
  velocity : Vector2
  angularVelocity : ℚ
  orient : ℚ
  rotation : Mat2
  force : Vector2
  torque : ℚ
  mass : ℚ
  inverseMass : ℚ
  inertia : ℚ
  inverseInertia : ℚ
  staticFriction : ℚ
  dynamicFriction : ℚ
  restitution : ℚ
  useGravity : Bool
  isGrounded : Bool
  shape : Shape
deriving DecidableEq, Repr

/-- Modelled from the spec: toggling the `enabled` flag converts a body into
a static obstacle; nothing but the flag itself is stored differently, so the
original mass properties are retained for reactivation. -/
def PhysicsBody.setEnabled (b : PhysicsBody) (v : Bool) : PhysicsBody :=
  { b with enabled := v }

/-- Modelled from the spec: the inverse mass the resolver actually uses —
for a disabled body the inverse mass is forced to 0 for resolution purposes
while the stored `inverseMass` field keeps its original value. -/
def effInverseMass (b : PhysicsBody) : ℚ :=
  if b.enabled then b.inverseMass else 0

/-- Modelled from the spec: the inverse moment of inertia the resolver uses,
forced to 0 for a disabled body exactly like the inverse mass. -/
def effInverseInertia (b : PhysicsBody) : ℚ :=
  if b.enabled then b.inverseInertia else 0

/-- Modelled from the spec: set_rotation stores the new orientation angle
together with its rotation matrix.  The map from an angle to its matrix is
trigonometric, hence irrational; the model therefore receives the cached
matrix as data next to the angle.  No verified claim reads the matrix. -/
def PhysicsBody.setRotation (b : PhysicsBody) (angle : ℚ) (m : Mat2) : PhysicsBody :=
  { b with orient := angle, rotation := m }

/-- Modelled from the spec: the registry — a fixed-capacity ownership store
with stable, never-reused identities — together with the simulation loop's
wall-clock accumulator and the gravity vector.  (The engine core is absent
from the sources.) -/
structure PhysicsWorld where
  maxBodies : ℕ
  bodies : List PhysicsBody
  nextId : ℕ
  accumulator : ℚ
  gravity : Vector2
deriving DecidableEq, Repr

/-- Modelled from the spec: `init_physics(max_bodies, ...)` allocates an
empty registry and zeroes the accumulator; gravity points down. -/
def initPhysics (maxBodies : ℕ) : PhysicsWorld :=
  { maxBodies := maxBodies
    bodies := []
    nextId := 0
    accumulator := 0
    gravity := ⟨0, 981 / 100⟩ }

/-- Modelled from the spec: rational stand-in for pi in the circle mass
formula (pi is irrational; no verified claim reads a numeric mass). -/
def ratPi : ℚ := 355 / 113

/-- Polygon area by the shoelace formula (over consecutive edge pairs). -/
def cyclePairs (l : List Vector2) : List (Vector2 × Vector2) :=
  match l with
  | [] => []
  | x :: xs => l.zip (xs ++ [x])

/-- Twice the signed polygon area (shoelace). -/
def twiceSignedArea (vs : List Vector2) : ℚ :=
  (cyclePairs vs).foldl (fun acc e => acc + Vector2.cross e.1 e.2) 0

/-- Modelled from the spec: compute_mass_properties(density) for a shape —
circle mass from density and area, polygon mass from the shoelace area; the
moment of inertia uses a simple radius-squared factor (its exact polygon
formula is numeric detail no verified claim depends on).  A zero result
encodes an immovable body (inverse 0). -/
def computeMassProperties (s : Shape) (density : ℚ) : ℚ × ℚ :=
  match s with
  | .circle r => (density * ratPi * r * r, density * ratPi * r * r * r * r / 2)
  | .polygon vs =>
      let area := twiceSignedArea vs / 2
      (density * area, density * area * area / 6)

/-- Inverse with the spec's convention that an infinite mass is stored as
inverse 0. -/
def safeInv (m : ℚ) : ℚ := if m = 0 then 0 else 1 / m

/-- Modelled from the spec: default material coefficients a factory gives a
fresh body (the spec fixes no numeric defaults). -/
def defaultStaticFriction : ℚ := 44 / 100

/-- Default dynamic friction coefficient for a fresh body. -/
def defaultDynamicFriction : ℚ := 35 / 100

/-- Default restitution for a fresh body. -/
def defaultRestitution : ℚ := 0

/-- Modelled from the spec: the common part of the body factories — initial
pose at the given position, zero velocity, mass and inertia computed from
shape and density, default material, enabled. -/
def mkBody (i : ℕ) (pos : Vector2) (s : Shape) (density : ℚ) : PhysicsBody :=
  let mp := computeMassProperties s density
  { id := i
    enabled := true
    position := pos
    velocity := 0
    angularVelocity := 0
    orient := 0
    rotation := Mat2.identity
    force := 0
    torque := 0
    mass := mp.1
    inverseMass := safeInv mp.1
    inertia := mp.2
    inverseInertia := safeInv mp.2
    staticFriction := defaultStaticFriction
    dynamicFriction := defaultDynamicFriction
    restitution := defaultRestitution
    useGravity := true
    isGrounded := false
    shape := s }

/-- Append a freshly built body, allocating the next identity. -/
def PhysicsWorld.addBody (w : PhysicsWorld) (pos : Vector2) (s : Shape)
    (density : ℚ) : PhysicsWorld × ℕ :=
  ({ w with bodies := w.bodies ++ [mkBody w.nextId pos s density],
            nextId := w.nextId + 1 }, w.nextId)

/-- Modelled from the spec: create_physics_body_circle — fails with
CapacityExceeded when the registry already holds max_bodies live bodies and
with InvalidShape on a non-positive radius, otherwise inserts a fresh body
and returns its stable identity. -/
def createPhysicsBodyCircle (w : PhysicsWorld) (pos : Vector2)
    (radius density : ℚ) : Except PhysicsError (PhysicsWorld × ℕ) :=
  if w.maxBodies ≤ w.bodies.length then .error .CapacityExceeded
  else if radius ≤ 0 then .error .InvalidShape
  else .ok (w.addBody pos (Shape.circle radius) density)

/-- Modelled from the spec: create_physics_body_polygon — fails with
CapacityExceeded at capacity and with InvalidShape on a degenerate polygon
(fewer than 3 vertices). -/
def createPhysicsBodyPolygon (w : PhysicsWorld) (pos : Vector2)
    (vertices : List Vector2) (density : ℚ) :
    Except PhysicsError (PhysicsWorld × ℕ) :=
  if w.maxBodies ≤ w.bodies.length then .error .CapacityExceeded
  else if vertices.length < 3 then .error .InvalidShape
  else .ok (w.addBody pos (Shape.polygon vertices) density)

/-- The 4-vertex local rectangle used by the rectangle factory. -/
def rectangleVertices (width height : ℚ) : List Vector2 :=
  [⟨-width / 2, -height / 2⟩, ⟨width / 2, -height / 2⟩,
   ⟨width / 2, height / 2⟩, ⟨-width / 2, height / 2⟩]

/-- Modelled from the spec: create_physics_body_rectangle — the convenience
factory that builds a 4-vertex rectangle polygon; fails with
CapacityExceeded at capacity and with InvalidShape on a non-positive
width or height. -/
def createPhysicsBodyRectangle (w : PhysicsWorld) (pos : Vector2)
    (width height density : ℚ) : Except PhysicsError (PhysicsWorld × ℕ) :=
  if w.maxBodies ≤ w.bodies.length then .error .CapacityExceeded
  else if width ≤ 0 ∨ height ≤ 0 then .error .InvalidShape
  else .ok (w.addBody pos (Shape.polygon (rectangleVertices width height)) density)

/-- Look a body up by identity in the live-body list. -/
def findBody (bodies : List PhysicsBody) (i : ℕ) : Option PhysicsBody :=
  bodies.find? (fun b => b.id == i)

/-- Modelled from the spec: lookup by identity; a stale identity fails with
InvalidIdentity and never aliases another live body. -/
def getPhysicsBody (w : PhysicsWorld) (i : ℕ) : Except PhysicsError PhysicsBody :=
  match findBody w.bodies i with
  | some b => .ok b
  | none => .error .InvalidIdentity

/-- Modelled from the spec: destroy_physics_body — removes the body with the
given identity (surviving bodies keep their order and identities) or fails
with InvalidIdentity when the identity is stale. -/
def destroyPhysicsBody (w : PhysicsWorld) (i : ℕ) :
    Except PhysicsError PhysicsWorld :=
  match findBody w.bodies i with
  | some _ => .ok { w with bodies := w.bodies.filter (fun b => b.id != i) }
  | none => .error .InvalidIdentity

/-- The create/destroy round-trip property (C4) for the result of one body
factory call on the registry state `w`: the factory succeeds returning the
next free identity, destroying that identity succeeds and restores exactly
the prior body list (hence the prior occupancy count), looking the stale
identity up fails with InvalidIdentity, no surviving live body carries it,
and every future body receives a strictly larger identity. -/
def roundTrips (w : PhysicsWorld) (res : Except PhysicsError (PhysicsWorld × ℕ)) : Prop :=
  ∃ w1 w2,
    res = Except.ok (w1, w.nextId) ∧
    destroyPhysicsBody w1 w.nextId = Except.ok w2 ∧
    w2.bodies = w.bodies ∧
    w2.bodies.length = w.bodies.length ∧
    getPhysicsBody w2 w.nextId = Except.error PhysicsError.InvalidIdentity ∧
    (∀ b ∈ w2.bodies, b.id ≠ w.nextId) ∧
    w.nextId < w2.nextId

/-- Modelled from the spec: the fixed number of outline vertices reported
for a circle body (the demo initializes the engine with 24/24 limits). -/
def circleVertexCount : ℕ := 24

/-- Modelled from the spec: get_physics_shape_vertices_count — the polygon
vertex count, or the fixed circle outline count for a circle body. -/
def getPhysicsShapeVerticesCount (b : PhysicsBody) : ℕ :=
  match b.shape with
  | .circle _ => circleVertexCount
  | .polygon vs => vs.length

/-- Modelled from the spec: the i-th direction of the circle outline.  The
spec fixes only that the outline is a closed loop of `circleVertexCount`
points on the circle; the trigonometric parametrization is irrational, so
the model uses the rational parametrization of the unit circle. -/
def circleDir (i : ℕ) : Vector2 :=
  let t : ℚ := (i : ℚ) / (circleVertexCount : ℚ)
  ⟨(1 - t * t) / (1 + t * t), 2 * t / (1 + t * t)⟩

/-- Modelled from the spec: get_physics_shape_vertex — the i-th world-space
outline vertex (rotation applied, then translation); indices outside the
shape's vertex count report an error (modelled as `none`). -/
def getPhysicsShapeVertex (b : PhysicsBody) (i : ℕ) : Option Vector2 :=
  match b.shape with
  | .circle r =>
      if i < circleVertexCount then some (b.position + (circleDir i).scale r)
      else none
  | .polygon vs =>
      match vs[i]? with
      | some v => some (b.position + b.rotation.mulVec v)
      | none => none

/-- The demo's helper closing the outline loop: the next vertex index, or 0
past the last vertex. -/
def nextIdx (i count : ℕ) : ℕ :=
  if i + 1 < count then i + 1 else 0

/-- World-space polygon vertices of a body: rotation, then translation. -/
def worldPoly (b : PhysicsBody) : List Vector2 :=
  match b.shape with
  | .circle _ => []
  | .polygon vs => vs.map (fun v => b.position + b.rotation.mulVec v)

/-- Clamp a rational into an interval. -/
def clampQ (lo hi x : ℚ) : ℚ := max lo (min hi x)

/-- Exact squared distance from a point to a segment (used by the
circle-polygon nearest-feature test). -/
def distSqPointSegment (p a b : Vector2) : ℚ :=
  let ab := b - a
  let denom := Vector2.lenSq ab
  if denom = 0 then Vector2.lenSq (p - a)
  else
    let t := clampQ 0 1 (Vector2.dot (p - a) ab / denom)
    Vector2.lenSq (p - (a + ab.scale t))

/-- Point-in-convex-polygon test: the point lies on the inner side of every
edge of the consistently wound vertex loop. -/
def pointInConvex (pts : List Vector2) (p : Vector2) : Bool :=
  (cyclePairs pts).all (fun e => decide (0 ≤ Vector2.cross (e.2 - e.1) (p - e.1)))

/-- Modelled from the spec: circle-polygon narrow phase — the circle
overlaps the polygon when its center is inside or some edge comes within
one radius of the center (nearest feature, compared through squares so the
test stays exact). -/
def circlePolyOverlap (center : Vector2) (r : ℚ) (pts : List Vector2) : Bool :=
  pointInConvex pts center ||
    (cyclePairs pts).any (fun e => decide (distSqPointSegment center e.1 e.2 ≤ r * r))

/-- Outward edge normal of a polygon edge (unnormalized: the spec's unit
normal divides by an irrational length; only the direction matters to the
separating-axis test). -/
def edgeNormal (e : Vector2 × Vector2) : Vector2 :=
  ⟨e.2.y - e.1.y, e.1.x - e.2.x⟩

/-- Projection interval of a vertex list onto an axis. -/
def projectInterval (axis : Vector2) (pts : List Vector2) : ℚ × ℚ :=
  match pts with
  | [] => (0, 0)
  | p :: ps =>
      ps.foldl
        (fun acc q => (min acc.1 (Vector2.dot axis q), max acc.2 (Vector2.dot axis q)))
        (Vector2.dot axis p, Vector2.dot axis p)

/-- Two projection intervals overlap. -/
def intervalsOverlap (i j : ℚ × ℚ) : Bool :=
  decide (i.1 ≤ j.2 ∧ j.1 ≤ i.2)

/-- Modelled from the spec: polygon-polygon Separating Axis Test over the
face normals of both polygons — any axis without overlap means no
collision. -/
def polysOverlap (ptsA ptsB : List Vector2) : Bool :=
  ((cyclePairs ptsA ++ cyclePairs ptsB).map edgeNormal).all
    (fun axis => intervalsOverlap (projectInterval axis ptsA) (projectInterval axis ptsB))

/-- Modelled from the spec: the narrow-phase overlap decision, dispatching
on the shape-kind pair (circle-circle by comparing the center distance to
the radius sum, through squares to stay exact). -/
def shapesOverlap (a b : PhysicsBody) : Bool :=
  match a.shape, b.shape with
  | .circle ra, .circle rb =>
      decide (Vector2.lenSq (b.position - a.position) ≤ (ra + rb) * (ra + rb))
  | .circle ra, .polygon _ => circlePolyOverlap a.position ra (worldPoly b)
  | .polygon _, .circle rb => circlePolyOverlap b.position rb (worldPoly a)
  | .polygon _, .polygon _ => polysOverlap (worldPoly a) (worldPoly b)

/-- Modelled from the spec: the contact manifold — pair of body identities,
collision normal pointing from the first body toward the second,
penetration depth and contact point list; ephemeral, rebuilt each
sub-step. -/
structure Manifold where
  idA : ℕ
  idB : ℕ
  normal : Vector2
  penetration : ℚ
  contacts : List Vector2
deriving DecidableEq, Repr

/-- Overlap amount of two projection intervals. -/
def intervalOverlapAmount (i j : ℚ × ℚ) : ℚ :=
  min i.2 j.2 - max i.1 j.1

/-- Minimum of a list of rationals, 0 for the empty list. -/
def minOf (l : List ℚ) : ℚ :=
  match l with
  | [] => 0
  | x :: xs => xs.foldl min x

/-- Modelled from the spec: the manifold's penetration depth (nonnegative).
The spec measures it along the unit contact normal; unit normalization is
irrational, so the model uses the exact squared/axis-scaled overlap measure
of the colliding pair.  No verified claim reads this number. -/
def penetrationMeasure (a b : PhysicsBody) : ℚ :=
  match a.shape, b.shape with
  | .circle ra, .circle rb =>
      max 0 ((ra + rb) * (ra + rb) - Vector2.lenSq (b.position - a.position))
  | .circle ra, .polygon _ =>
      max 0 (ra * ra - minOf ((cyclePairs (worldPoly b)).map
        (fun e => distSqPointSegment a.position e.1 e.2)))
  | .polygon _, .circle rb =>
      max 0 (rb * rb - minOf ((cyclePairs (worldPoly a)).map
        (fun e => distSqPointSegment b.position e.1 e.2)))
  | .polygon _, .polygon _ =>
      max 0 (minOf (((cyclePairs (worldPoly a) ++ cyclePairs (worldPoly b)).map edgeNormal).map
        (fun axis => intervalOverlapAmount (projectInterval axis (worldPoly a))
          (projectInterval axis (worldPoly b)))))

/-- Modelled from the spec: the manifold built for a colliding pair.  The
normal is the direction from the first body toward the second
(unnormalized: its unit length is irrational); the contact list holds one
representative point between the two centers — the spec's clipped contact
set (one point for circle cases, up to two for polygon-polygon) is
geometric detail no verified claim depends on. -/
def computeManifold (a b : PhysicsBody) : Manifold :=
  { idA := a.id
    idB := b.id
    normal := b.position - a.position
    penetration := penetrationMeasure a b
    contacts := [(a.position + b.position).scale (1 / 2)] }

/-- Modelled from the spec: narrow phase for one unordered pair — pairs
whose two (resolution-effective) inverse masses are both zero are skipped
entirely, producing no manifold; otherwise an overlapping pair produces
exactly one manifold. -/
def detectPair (a b : PhysicsBody) : Option Manifold :=
  if effInverseMass a = 0 ∧ effInverseMass b = 0 then none
  else if shapesOverlap a b then some (computeManifold a b) else none

/-- All unordered pairs of a list, in order. -/
def allPairs {α : Type} : List α → List (α × α)
  | [] => []
  | x :: xs => xs.map (fun y => (x, y)) ++ allPairs xs

/-- Modelled from the spec: the broad pass — every unordered pair of live
bodies goes through the narrow phase; the manifolds of one sub-step. -/
def detectAll (bodies : List PhysicsBody) : List Manifold :=
  (allPairs bodies).filterMap (fun p => detectPair p.1 p.2)

/-- Modelled from the spec: apply an impulse at a contact point to a body's
linear and angular velocity, scaled by its inverse mass and inertia;
immovable bodies (resolution-effective inverse mass 0) are unaffected. -/
def applyImpulseAt (b : PhysicsBody) (contact impulse : Vector2) : PhysicsBody :=
  if effInverseMass b = 0 then b
  else
    { b with
      velocity := b.velocity + impulse.scale b.inverseMass
      angularVelocity :=
        b.angularVelocity + b.inverseInertia * Vector2.cross (contact - b.position) impulse }

/-- Modelled from the spec: move a body by the positional-correction offset;
immovable bodies are unaffected. -/
def correctPosition (b : PhysicsBody) (dir : Vector2) (mag : ℚ) : PhysicsBody :=
  if effInverseMass b = 0 then b
  else { b with position := b.position + dir.scale (mag * b.inverseMass) }

/-- Modelled from the spec: the clamped normal impulse magnitude — computed
from the relative normal velocity, the combined restitution and the
standard impulse denominator, then clamped to be non-negative (contacts
only push, never pull). -/
def normalImpulseMagnitude (e velN isum : ℚ) : ℚ :=
  max 0 (-(1 + e) * velN / isum)

/-- Modelled from the spec: the penetration fraction corrected per sub-step
(Baumgarte-style stabilization; a small stiffness factor, never the whole
penetration at once). -/
def penetrationCorrectionFactor : ℚ := 2 / 5

/-- Modelled from the spec: the penetration allowance (slop) below which no
positional correction is applied. -/
def penetrationAllowance : ℚ := 1 / 20

/-- Modelled from the spec: the squared tangential-speed threshold below
which the static (rather than dynamic) friction coefficient resists motion
initiation (stick/slip model). -/
def stickThresholdSq : ℚ := 1 / 10000

/-- Modelled from the spec: resolve one contact point of a manifold between
two bodies — relative velocity at the contact, clamped normal impulse,
Coulomb friction impulse bounded by the combined coefficient times the
normal impulse (static coefficient below the stick threshold), equal and
opposite application, then bounded positional correction.  The tangent
direction is the normal's perpendicular (the spec's unit tangent divides by
an irrational length). -/
def resolveContact (e muS muD : ℚ) (n : Vector2) (pen : ℚ)
    (ab : PhysicsBody × PhysicsBody) (p : Vector2) : PhysicsBody × PhysicsBody :=
  let a := ab.1
  let b := ab.2
  let ra := p - a.position
  let rb := p - b.position
  let rv := (b.velocity + Vector2.crossSV b.angularVelocity rb) -
            (a.velocity + Vector2.crossSV a.angularVelocity ra)
  let velN := Vector2.dot rv n
  let msum := effInverseMass a + effInverseMass b
  let isum := msum + effInverseInertia a * Vector2.cross ra n * Vector2.cross ra n +
              effInverseInertia b * Vector2.cross rb n * Vector2.cross rb n
  if isum = 0 then ab
  else
    let j := normalImpulseMagnitude e velN isum
    let t := Vector2.perp n
    let velT := Vector2.dot rv t
    let tsum := msum + effInverseInertia a * Vector2.cross ra t * Vector2.cross ra t +
                effInverseInertia b * Vector2.cross rb t * Vector2.cross rb t
    let mu := if velT * velT ≤ stickThresholdSq then muS else muD
    let jtFree := if tsum = 0 then 0 else -velT / tsum
    let bound := mu * j
    let jt := clampQ (-bound) bound jtFree
    let impulse := n.scale j + t.scale jt
    let a1 := applyImpulseAt a p (-impulse)
    let b1 := applyImpulseAt b p impulse
    let corr := if msum = 0 then 0
                else penetrationCorrectionFactor * max 0 (pen - penetrationAllowance) / msum
    (correctPosition a1 (-n) corr, correctPosition b1 n corr)

/-- Modelled from the spec: resolve every contact point of one manifold for
its two bodies, with the combined restitution taken as the minimum and the
combined friction coefficients as the product of the two bodies'
coefficients (the spec requires a fixed, documented choice). -/
def resolvePair (m : Manifold) (a b : PhysicsBody) : PhysicsBody × PhysicsBody :=
  let e := min a.restitution b.restitution
  let muS := a.staticFriction * b.staticFriction
  let muD := a.dynamicFriction * b.dynamicFriction
  m.contacts.foldl (resolveContact e muS muD m.normal m.penetration) (a, b)

/-- Modelled from the spec: apply one manifold's resolution to the body
list — the two referenced bodies are looked up by identity and replaced by
their resolved states; every other body is untouched. -/
def resolveManifold (bodies : List PhysicsBody) (m : Manifold) : List PhysicsBody :=
  match findBody bodies m.idA, findBody bodies m.idB with
  | some a, some b =>
      let r := resolvePair m a b
      bodies.map (fun c => if c.id = m.idA then r.1 else if c.id = m.idB then r.2 else c)
  | _, _ => bodies

/-- Modelled from the spec: the contact resolver — a single pass over the
sub-step's manifolds. -/
def resolveAll (ms : List Manifold) (bodies : List PhysicsBody) : List PhysicsBody :=
  ms.foldl resolveManifold bodies

/-- Modelled from the spec: the fixed internal sub-step duration. -/
def fixedSubStep : ℚ := 1 / 60

/-- Modelled from the spec: the integrator — semi-implicit Euler over one
fixed sub-step for every enabled body with non-zero inverse mass (gravity
when `useGravity`, then applied forces and torque; accumulators cleared
afterwards); disabled or infinite-mass bodies are skipped entirely. -/
def integrateBody (gravity : Vector2) (dt : ℚ) (b : PhysicsBody) : PhysicsBody :=
  if b.enabled = true ∧ b.inverseMass ≠ 0 then
    let accel := b.force.scale b.inverseMass + (if b.useGravity then gravity else 0)
    let v := b.velocity + accel.scale dt
    let pos := b.position + v.scale dt
    let av := b.angularVelocity + b.torque * b.inverseInertia * dt
    let o := b.orient + av * dt
    { b with velocity := v, position := pos, angularVelocity := av, orient := o,
             force := 0, torque := 0 }
  else b

/-- One [detect, resolve, integrate] pass over the body list. -/
def subStepBodies (gravity : Vector2) (bodies : List PhysicsBody) : List PhysicsBody :=
  (resolveAll (detectAll bodies) bodies).map (integrateBody gravity fixedSubStep)

/-- Modelled from the spec: one full fixed-duration simulation sub-step —
detect, resolve, integrate — leaving the accumulator untouched. -/
def PhysicsWorld.subStep (w : PhysicsWorld) : PhysicsWorld :=
  { w with bodies := subStepBodies w.gravity w.bodies }

/-- n consecutive sub-steps (the synchronous, no-background-thread mode). -/
def runSubSteps : ℕ → PhysicsWorld → PhysicsWorld
  | 0, w => w
  | n + 1, w => runSubSteps n w.subStep

/-- Modelled from the spec: the cap on sub-steps per `step` call that
avoids the spiral of death under severe lag. -/
def maxSubStepsPerCall : ℕ := 8

/-- The fuelled while-loop of the stepper: while the accumulator holds at
least one sub-step and the cap is not reached, run one sub-step and
subtract the sub-step duration. -/
def stepLoop : ℕ → PhysicsWorld → PhysicsWorld
  | 0, w => w
  | n + 1, w =>
      if fixedSubStep ≤ w.accumulator then
        stepLoop n { w.subStep with accumulator := w.accumulator - fixedSubStep }
      else w

/-- Modelled from the spec: run_physics_step / step(dt_wall) — add the
elapsed wall-clock time to the accumulator, then perform full sub-step
cycles (capped) while a whole sub-step of accumulated time remains,
retaining the remainder. -/
def runPhysicsStep (w : PhysicsWorld) (dtWall : ℚ) : PhysicsWorld :=
  stepLoop maxSubStepsPerCall { w with accumulator := w.accumulator + dtWall }

/-- The number of sub-step cycles one `step(dt_wall)` call performs for a
given post-addition accumulator value: the floor of the accumulated time in
sub-step units, capped. -/
def plannedSubSteps (acc : ℚ) : ℕ :=
  min maxSubStepsPerCall (Int.toNat ⌊acc / fixedSubStep⌋)

/-- Identities of the live bodies are pairwise distinct (the registry
invariant: no two live bodies share an identity). -/
def bodyIdsNodup (bodies : List PhysicsBody) : Prop :=
  (bodies.map PhysicsBody.id).Nodup

instance (bodies : List PhysicsBody) : Decidable (bodyIdsNodup bodies) :=
  inferInstanceAs (Decidable ((bodies.map PhysicsBody.id).Nodup))

/-- The pose a renderer reads back after a step: position and orientation. -/
def bodyPose (b : PhysicsBody) : Vector2 × ℚ :=
  (b.position, b.orient)

/-! Concrete sample data used to instantiate the theorems below. -/

/-- A concrete enabled dynamic circle body. -/
def sampleDynamic : PhysicsBody := mkBody 0 ⟨0, 0⟩ (Shape.circle 2) 1

/-- A concrete disabled circle body overlapping `sampleDynamic`. -/
def sampleDisabled : PhysicsBody :=
  { mkBody 1 ⟨1, 0⟩ (Shape.circle 2) 1 with enabled := false }

/-- A world holding the overlapping enabled/disabled pair. -/
def sampleWorld : PhysicsWorld :=
  { maxBodies := 4, bodies := [sampleDynamic, sampleDisabled], nextId := 2,
    accumulator := 0, gravity := ⟨0, 981 / 100⟩ }

/-- A concrete immovable circle body (zero density, hence inverse mass 0). -/
def sampleStaticA : PhysicsBody := mkBody 0 ⟨0, 0⟩ (Shape.circle 2) 0

/-- A second immovable circle body overlapping the first. -/
def sampleStaticB : PhysicsBody := mkBody 1 ⟨1, 0⟩ (Shape.circle 2) 0

/-- A world holding the two overlapping immovable bodies. -/
def sampleStaticWorld : PhysicsWorld :=
  { maxBodies := 4, bodies := [sampleStaticA, sampleStaticB], nextId := 2,
    accumulator := 0, gravity := ⟨0, 981 / 100⟩ }

/-- A world already holding its maximum number of live bodies. -/
def sampleFullWorld : PhysicsWorld :=
  { maxBodies := 1, bodies := [sampleDynamic], nextId := 1,
    accumulator := 0, gravity := ⟨0, 981 / 100⟩ }

/-- A world with free capacity (one live body, room for one more). -/
def sampleFreeWorld : PhysicsWorld :=
  { maxBodies := 2, bodies := [sampleDynamic], nextId := 1,
    accumulator := 0, gravity := ⟨0, 981 / 100⟩ }

/-- A concrete polygon body (a 40 by 40 rectangle). -/
def samplePolygonBody : PhysicsBody :=
  mkBody 3 ⟨5, 5⟩ (Shape.polygon (rectangleVertices 40 40)) 10

end Physac

/-! ## Basic component lemmas -/

namespace Physac

theorem Vector2.add_x (a b : Vector2) : (a + b).x = a.x + b.x := rfl

theorem Vector2.add_y (a b : Vector2) : (a + b).y = a.y + b.y := rfl

theorem Vector2.sub_x (a b : Vector2) : (a - b).x = a.x - b.x := rfl

theorem Vector2.sub_y (a b : Vector2) : (a - b).y = a.y - b.y := rfl

theorem Vector2.neg_x (a : Vector2) : (-a).x = -a.x := rfl

theorem Vector2.neg_y (a : Vector2) : (-a).y = -a.y := rfl

theorem Vector2.zero_x : (0 : Vector2).x = 0 := rfl

theorem Vector2.zero_y : (0 : Vector2).y = 0 := rfl

end Physac

/-! ## Claim theorems -/

namespace Physac

/-- C6: in contact resolution, the normal impulse magnitude applied at
every contact point is clamped to be non-negative — `resolveContact`
applies exactly `normalImpulseMagnitude`, which clamps the raw impulse at
zero, so no contact ever pulls the two bodies together along the contact
normal. -/
theorem normal_impulse_never_pulls (e velN isum : ℚ) :
    0 ≤ normalImpulseMagnitude e velN isum :=
  le_max_left 0 _

/-- C8: disabling a body forces its resolution-effective inverse mass to 0
while leaving the stored mass, inverse mass, inertia and inverse inertia
unchanged; toggling the flag changes no other attribute, and re-enabling
restores the body exactly. -/
theorem set_enabled_preserves_dynamics (b : PhysicsBody) (hb : b.enabled = true) :
    effInverseMass (b.setEnabled false) = 0 ∧
    (b.setEnabled false).mass = b.mass ∧
    (b.setEnabled false).inverseMass = b.inverseMass ∧
    (b.setEnabled false).inertia = b.inertia ∧
    (b.setEnabled false).inverseInertia = b.inverseInertia ∧
    b.setEnabled false = { b with enabled := false } ∧
    (b.setEnabled false).setEnabled true = b := by
  refine ⟨rfl, rfl, rfl, rfl, rfl, rfl, ?_⟩
  show { b with enabled := true } = b
  rw [← hb]

/-- Witness for C8 at a concrete enabled body. -/
theorem set_enabled_preserves_dynamics_witness :
    effInverseMass (sampleDynamic.setEnabled false) = 0 ∧
    (sampleDynamic.setEnabled false).mass = sampleDynamic.mass ∧
    (sampleDynamic.setEnabled false).inverseMass = sampleDynamic.inverseMass ∧
    (sampleDynamic.setEnabled false).inertia = sampleDynamic.inertia ∧
    (sampleDynamic.setEnabled false).inverseInertia = sampleDynamic.inverseInertia ∧
    sampleDynamic.setEnabled false = { sampleDynamic with enabled := false } ∧
    (sampleDynamic.setEnabled false).setEnabled true = sampleDynamic :=
  set_enabled_preserves_dynamics sampleDynamic rfl

/-- C9: determinism — two synchronous runs of the same number of fixed
sub-steps from identical initial configurations produce identical final
poses for every body. -/
theorem synchronous_runs_deterministic (w₁ w₂ : PhysicsWorld) (n : ℕ)
    (h : w₁ = w₂) :
    (runSubSteps n w₁).bodies.map bodyPose =
      (runSubSteps n w₂).bodies.map bodyPose := by
  rw [h]

/-- Witness for C9 at a concrete world and step count. -/
theorem synchronous_runs_deterministic_witness :
    (runSubSteps 2 sampleWorld).bodies.map bodyPose =
      (runSubSteps 2 sampleWorld).bodies.map bodyPose :=
  synchronous_runs_deterministic sampleWorld sampleWorld 2 rfl

/-- C10: the shape-vertex getter is total on every index below the shape's
vertex count — for circle bodies as well as polygon bodies it returns a
world-space vertex (never an error), and the renderer's loop-closing index
`nextIdx` stays in range, so the traversal always succeeds. -/
theorem shape_vertex_getter_total (b : PhysicsBody) (i : ℕ)
    (hi : i < getPhysicsShapeVerticesCount b) :
    (getPhysicsShapeVertex b i).isSome = true ∧
    (getPhysicsShapeVertex b (nextIdx i (getPhysicsShapeVerticesCount b))).isSome = true := by
  have hnext : nextIdx i (getPhysicsShapeVerticesCount b) < getPhysicsShapeVerticesCount b := by
    unfold nextIdx
    split
    · assumption
    · omega
  rcases hsh : b.shape with r | vs
  · rw [getPhysicsShapeVerticesCount, hsh] at hi hnext
    constructor
    · rw [getPhysicsShapeVertex, hsh]
      simp [hi]
    · rw [getPhysicsShapeVertex, hsh]
      rw [getPhysicsShapeVerticesCount, hsh]
      simp [hnext]
  · rw [getPhysicsShapeVerticesCount, hsh] at hi hnext
    constructor
    · rw [getPhysicsShapeVertex, hsh]
      have : vs[i]? = some (vs.get ⟨i, hi⟩) := List.getElem?_eq_getElem hi
      simp [this]
    · rw [getPhysicsShapeVertex, hsh]
      rw [getPhysicsShapeVerticesCount, hsh]
      have : vs[nextIdx i vs.length]? = some (vs.get ⟨_, hnext⟩) :=
        List.getElem?_eq_getElem hnext
      simp [this]

/-- Witness for C10 at a concrete circle body and a concrete polygon
body. -/
theorem shape_vertex_getter_total_witness :
    ((getPhysicsShapeVertex sampleDynamic 5).isSome = true ∧
      (getPhysicsShapeVertex sampleDynamic
        (nextIdx 5 (getPhysicsShapeVerticesCount sampleDynamic))).isSome = true) ∧
    ((getPhysicsShapeVertex samplePolygonBody 2).isSome = true ∧
      (getPhysicsShapeVertex samplePolygonBody
        (nextIdx 2 (getPhysicsShapeVerticesCount samplePolygonBody))).isSome = true) :=
  ⟨shape_vertex_getter_total sampleDynamic 5 (by decide),
   shape_vertex_getter_total samplePolygonBody 2 (by decide)⟩

/-- C3: with the registry already holding `maxBodies` live bodies, each of
the three body factories fails with CapacityExceeded; no partial body is
inserted and the registry value is untouched (the factories return only the
error, never a changed world). -/
theorem factories_fail_at_capacity (w : PhysicsWorld)
    (hfull : w.bodies.length = w.maxBodies) :
    (∀ pos r d, createPhysicsBodyCircle w pos r d = .error .CapacityExceeded) ∧
    (∀ pos vs d, createPhysicsBodyPolygon w pos vs d = .error .CapacityExceeded) ∧
    (∀ pos wd ht d, createPhysicsBodyRectangle w pos wd ht d = .error .CapacityExceeded) := by
  have hle : w.maxBodies ≤ w.bodies.length := le_of_eq hfull.symm
  refine ⟨fun pos r d => ?_, fun pos vs d => ?_, fun pos wd ht d => ?_⟩
  · rw [createPhysicsBodyCircle, if_pos hle]
  · rw [createPhysicsBodyPolygon, if_pos hle]
  · rw [createPhysicsBodyRectangle, if_pos hle]

/-- The sub-step duration is positive. -/
theorem fixedSubStep_pos : (0 : ℚ) < fixedSubStep := by
  rw [fixedSubStep]
  norm_num

/-- A sub-step never touches the accumulator. -/
theorem subStep_accumulator (w : PhysicsWorld) :
    w.subStep.accumulator = w.accumulator := rfl

/-- Overwriting the accumulator commutes with a sub-step. -/
theorem subStep_setAcc (w : PhysicsWorld) (a : ℚ) :
    PhysicsWorld.subStep { w with accumulator := a } =
      { w.subStep with accumulator := a } := rfl

/-- The bodies after n sub-steps do not depend on the accumulator. -/
theorem runSubSteps_bodies_setAcc (n : ℕ) (w : PhysicsWorld) (a : ℚ) :
    (runSubSteps n { w with accumulator := a }).bodies = (runSubSteps n w).bodies := by
  induction n generalizing w a with
  | zero => rfl
  | succ n ih =>
      show (runSubSteps n (PhysicsWorld.subStep { w with accumulator := a })).bodies =
        (runSubSteps n w.subStep).bodies
      rw [subStep_setAcc]
      exact ih w.subStep a

/-- Invariant of the fuelled stepping loop: with a non-negative accumulator
it performs exactly `min fuel ⌊accumulator / fixedSubStep⌋` sub-step
cycles, subtracting one sub-step of time per cycle. -/
theorem stepLoop_spec (n : ℕ) (w : PhysicsWorld) (hacc : 0 ≤ w.accumulator) :
    (stepLoop n w).accumulator =
      w.accumulator -
        ((min n (Int.toNat ⌊w.accumulator / fixedSubStep⌋) : ℕ) : ℚ) * fixedSubStep ∧
    (stepLoop n w).bodies =
      (runSubSteps (min n (Int.toNat ⌊w.accumulator / fixedSubStep⌋)) w).bodies := by
  induction n generalizing w with
  | zero => simp [stepLoop, runSubSteps]
  | succ n ih =>
      have hsubpos : (0 : ℚ) < fixedSubStep := fixedSubStep_pos
      by_cases hge : fixedSubStep ≤ w.accumulator
      · have ht1 : 1 ≤ ⌊w.accumulator / fixedSubStep⌋ := by
          rw [Int.le_floor]
          push_cast
          rw [le_div_iff₀ hsubpos]
          linarith
        have hacc2 : (0 : ℚ) ≤ w.accumulator - fixedSubStep := by linarith
        have hstep : stepLoop (n + 1) w =
            stepLoop n { w.subStep with accumulator := w.accumulator - fixedSubStep } := by
          rw [stepLoop, if_pos hge]
        have hrec := ih { w.subStep with accumulator := w.accumulator - fixedSubStep } hacc2
        have hfloor2 : ⌊(w.accumulator - fixedSubStep) / fixedSubStep⌋ =
            ⌊w.accumulator / fixedSubStep⌋ - 1 := by
          rw [sub_div, div_self (ne_of_gt hsubpos), Int.floor_sub_one]
        have hmin : min (n + 1) (Int.toNat ⌊w.accumulator / fixedSubStep⌋) =
            min n (Int.toNat (⌊w.accumulator / fixedSubStep⌋ - 1)) + 1 := by
          omega
        constructor
        · rw [hstep, hrec.1]
          show w.accumulator - fixedSubStep - _ = _
          rw [hfloor2, hmin]
          push_cast
          ring
        · rw [hstep, hrec.2]
          show (runSubSteps _ { w.subStep with accumulator := _ }).bodies = _
          rw [hfloor2, hmin, runSubSteps_bodies_setAcc]
          rfl
      · have hlt : w.accumulator / fixedSubStep < 1 := (div_lt_one hsubpos).2 (lt_of_not_le hge)
        have hge0 : (0 : ℚ) ≤ w.accumulator / fixedSubStep := div_nonneg hacc hsubpos.le
        have hfl : ⌊w.accumulator / fixedSubStep⌋ = 0 := by
          rw [Int.floor_eq_zero_iff]
          exact ⟨hge0, hlt⟩
        have hstep : stepLoop (n + 1) w = w := by
          rw [stepLoop, if_neg hge]
        rw [hstep, hfl]
        simp [runSubSteps]

/-- C2: `step(dt_wall)` adds the elapsed wall-clock time to the internal
accumulator and performs exactly `⌊accumulator / fixedSubStep⌋` full
[detect, resolve, integrate] sub-step cycles, capped at
`maxSubStepsPerCall`, subtracting one sub-step of time per cycle; the
non-negative remainder (below one sub-step whenever the cap was not hit) is
retained for the next call. -/
theorem step_accumulates_and_caps (w : PhysicsWorld) (dtWall : ℚ)
    (hacc : 0 ≤ w.accumulator) (hdt : 0 ≤ dtWall) :
    (runPhysicsStep w dtWall).accumulator =
      w.accumulator + dtWall -
        ((plannedSubSteps (w.accumulator + dtWall) : ℕ) : ℚ) * fixedSubStep ∧
    (runPhysicsStep w dtWall).bodies =
      (runSubSteps (plannedSubSteps (w.accumulator + dtWall)) w).bodies ∧
    0 ≤ (runPhysicsStep w dtWall).accumulator ∧
    (plannedSubSteps (w.accumulator + dtWall) < maxSubStepsPerCall →
      (runPhysicsStep w dtWall).accumulator < fixedSubStep) := by
  have hsubpos : (0 : ℚ) < fixedSubStep := fixedSubStep_pos
  have hacc' : (0 : ℚ) ≤ w.accumulator + dtWall := by linarith
  have hspec := stepLoop_spec maxSubStepsPerCall
    { w with accumulator := w.accumulator + dtWall } hacc'
  have hfl0 : (0 : ℤ) ≤ ⌊(w.accumulator + dtWall) / fixedSubStep⌋ :=
    Int.floor_nonneg.2 (div_nonneg hacc' hsubpos.le)
  have hplan : plannedSubSteps (w.accumulator + dtWall) =
      min maxSubStepsPerCall (Int.toNat ⌊(w.accumulator + dtWall) / fixedSubStep⌋) := rfl
  have hrun : runPhysicsStep w dtWall =
      stepLoop maxSubStepsPerCall { w with accumulator := w.accumulator + dtWall } := rfl
  have heq1 : (runPhysicsStep w dtWall).accumulator =
      w.accumulator + dtWall -
        ((plannedSubSteps (w.accumulator + dtWall) : ℕ) : ℚ) * fixedSubStep := by
    rw [hrun, hspec.1, hplan]
  refine ⟨heq1, ?_, ?_, ?_⟩
  · rw [hrun, hspec.2, hplan, runSubSteps_bodies_setAcc]
  · rw [heq1]
    have hkle : ((plannedSubSteps (w.accumulator + dtWall) : ℕ) : ℤ) ≤
        ⌊(w.accumulator + dtWall) / fixedSubStep⌋ := by
      rw [hplan]
      omega
    have : ((plannedSubSteps (w.accumulator + dtWall) : ℕ) : ℚ) ≤
        (w.accumulator + dtWall) / fixedSubStep := by
      have := Int.le_floor.1 (le_refl ⌊(w.accumulator + dtWall) / fixedSubStep⌋)
      calc ((plannedSubSteps (w.accumulator + dtWall) : ℕ) : ℚ)
          = (((plannedSubSteps (w.accumulator + dtWall) : ℕ) : ℤ) : ℚ) := by push_cast; ring
        _ ≤ (⌊(w.accumulator + dtWall) / fixedSubStep⌋ : ℚ) := by exact_mod_cast hkle
        _ ≤ (w.accumulator + dtWall) / fixedSubStep := Int.floor_le _
    have := (le_div_iff₀ hsubpos).1 this
    linarith
  · intro hcap
    rw [heq1]
    have hkeq : ((plannedSubSteps (w.accumulator + dtWall) : ℕ) : ℤ) =
        ⌊(w.accumulator + dtWall) / fixedSubStep⌋ := by
      rw [hplan] at hcap ⊢
      omega
    have hlt : (w.accumulator + dtWall) / fixedSubStep <
        ((plannedSubSteps (w.accumulator + dtWall) : ℕ) : ℚ) + 1 := by
      have h1 := Int.lt_floor_add_one ((w.accumulator + dtWall) / fixedSubStep)
      have h2 : ((⌊(w.accumulator + dtWall) / fixedSubStep⌋ : ℤ) : ℚ) =
          ((plannedSubSteps (w.accumulator + dtWall) : ℕ) : ℚ) := by
        exact_mod_cast hkeq.symm
      linarith [h2 ▸ h1]
    have := (div_lt_iff₀ hsubpos).1 hlt
    linarith

/-- Witness for C2 at a concrete world (empty registry, zero accumulator)
and a concrete elapsed time of two and a half sub-steps. -/
theorem step_accumulates_and_caps_witness :
    (runPhysicsStep (initPhysics 4) (1 / 24)).accumulator =
      (initPhysics 4).accumulator + 1 / 24 -
        ((plannedSubSteps ((initPhysics 4).accumulator + 1 / 24) : ℕ) : ℚ) * fixedSubStep ∧
    (runPhysicsStep (initPhysics 4) (1 / 24)).bodies =
      (runSubSteps (plannedSubSteps ((initPhysics 4).accumulator + 1 / 24))
        (initPhysics 4)).bodies ∧
    0 ≤ (runPhysicsStep (initPhysics 4) (1 / 24)).accumulator ∧
    (plannedSubSteps ((initPhysics 4).accumulator + 1 / 24) < maxSubStepsPerCall →
      (runPhysicsStep (initPhysics 4) (1 / 24)).accumulator < fixedSubStep) :=
  step_accumulates_and_caps (initPhysics 4) (1 / 24) le_rfl (by norm_num)

/-- Witness for C3 at a concrete full registry. -/
theorem factories_fail_at_capacity_witness :
    (∀ pos r d, createPhysicsBodyCircle sampleFullWorld pos r d =
      .error .CapacityExceeded) ∧
    (∀ pos vs d, createPhysicsBodyPolygon sampleFullWorld pos vs d =
      .error .CapacityExceeded) ∧
    (∀ pos wd ht d, createPhysicsBodyRectangle sampleFullWorld pos wd ht d =
      .error .CapacityExceeded) :=
  factories_fail_at_capacity sampleFullWorld rfl

/-! ## Immovable bodies are untouched by resolution and integration -/

theorem eff_zero_of_inverseMass_zero {b : PhysicsBody} (h : b.inverseMass = 0) :
    effInverseMass b = 0 := by
  rw [effInverseMass]
  split
  · exact h
  · rfl

theorem eff_zero_of_disabled {b : PhysicsBody} (h : b.enabled = false) :
    effInverseMass b = 0 := by
  simp [effInverseMass, h]

theorem applyImpulseAt_of_eff_zero (b : PhysicsBody) (p imp : Vector2)
    (h : effInverseMass b = 0) : applyImpulseAt b p imp = b := by
  rw [applyImpulseAt, if_pos h]

theorem correctPosition_of_eff_zero (b : PhysicsBody) (dir : Vector2) (mag : ℚ)
    (h : effInverseMass b = 0) : correctPosition b dir mag = b := by
  rw [correctPosition, if_pos h]

theorem applyImpulseAt_id (b : PhysicsBody) (p imp : Vector2) :
    (applyImpulseAt b p imp).id = b.id := by
  rw [applyImpulseAt]
  split <;> rfl

theorem correctPosition_id (b : PhysicsBody) (dir : Vector2) (mag : ℚ) :
    (correctPosition b dir mag).id = b.id := by
  rw [correctPosition]
  split <;> rfl

theorem resolveContact_fst_id (e muS muD : ℚ) (n : Vector2) (pen : ℚ)
    (ab : PhysicsBody × PhysicsBody) (p : Vector2) :
    (resolveContact e muS muD n pen ab p).1.id = ab.1.id := by
  simp only [resolveContact]
  split
  · rfl
  · rw [correctPosition_id, applyImpulseAt_id]

theorem resolveContact_snd_id (e muS muD : ℚ) (n : Vector2) (pen : ℚ)
    (ab : PhysicsBody × PhysicsBody) (p : Vector2) :
    (resolveContact e muS muD n pen ab p).2.id = ab.2.id := by
  simp only [resolveContact]
  split
  · rfl
  · rw [correctPosition_id, applyImpulseAt_id]

theorem resolveContact_fst_of_eff_zero (e muS muD : ℚ) (n : Vector2) (pen : ℚ)
    (ab : PhysicsBody × PhysicsBody) (p : Vector2) (h : effInverseMass ab.1 = 0) :
    (resolveContact e muS muD n pen ab p).1 = ab.1 := by
  simp only [resolveContact]
  split
  · rfl
  · rw [applyImpulseAt_of_eff_zero _ _ _ h, correctPosition_of_eff_zero _ _ _ h]

theorem resolveContact_snd_of_eff_zero (e muS muD : ℚ) (n : Vector2) (pen : ℚ)
    (ab : PhysicsBody × PhysicsBody) (p : Vector2) (h : effInverseMass ab.2 = 0) :
    (resolveContact e muS muD n pen ab p).2 = ab.2 := by
  simp only [resolveContact]
  split
  · rfl
  · rw [applyImpulseAt_of_eff_zero _ _ _ h, correctPosition_of_eff_zero _ _ _ h]

theorem foldl_resolveContact_fst_id (e muS muD : ℚ) (n : Vector2) (pen : ℚ)
    (cs : List Vector2) (ab : PhysicsBody × PhysicsBody) :
    (cs.foldl (resolveContact e muS muD n pen) ab).1.id = ab.1.id := by
  induction cs generalizing ab with
  | nil => rfl
  | cons c cs ih => rw [List.foldl_cons, ih, resolveContact_fst_id]

theorem foldl_resolveContact_snd_id (e muS muD : ℚ) (n : Vector2) (pen : ℚ)
    (cs : List Vector2) (ab : PhysicsBody × PhysicsBody) :
    (cs.foldl (resolveContact e muS muD n pen) ab).2.id = ab.2.id := by
  induction cs generalizing ab with
  | nil => rfl
  | cons c cs ih => rw [List.foldl_cons, ih, resolveContact_snd_id]

theorem foldl_resolveContact_fst_of_eff_zero (e muS muD : ℚ) (n : Vector2) (pen : ℚ)
    (cs : List Vector2) (ab : PhysicsBody × PhysicsBody) (h : effInverseMass ab.1 = 0) :
    (cs.foldl (resolveContact e muS muD n pen) ab).1 = ab.1 := by
  induction cs generalizing ab with
  | nil => rfl
  | cons c cs ih =>
      have h1 : (resolveContact e muS muD n pen ab c).1 = ab.1 :=
        resolveContact_fst_of_eff_zero e muS muD n pen ab c h
      rw [List.foldl_cons, ih _ (by rw [h1]; exact h), h1]

theorem foldl_resolveContact_snd_of_eff_zero (e muS muD : ℚ) (n : Vector2) (pen : ℚ)
    (cs : List Vector2) (ab : PhysicsBody × PhysicsBody) (h : effInverseMass ab.2 = 0) :
    (cs.foldl (resolveContact e muS muD n pen) ab).2 = ab.2 := by
  induction cs generalizing ab with
  | nil => rfl
  | cons c cs ih =>
      have h1 : (resolveContact e muS muD n pen ab c).2 = ab.2 :=
        resolveContact_snd_of_eff_zero e muS muD n pen ab c h
      rw [List.foldl_cons, ih _ (by rw [h1]; exact h), h1]

theorem resolvePair_fst_id (m : Manifold) (a b : PhysicsBody) :
    (resolvePair m a b).1.id = a.id := by
  simp only [resolvePair]
  exact foldl_resolveContact_fst_id _ _ _ _ _ _ _

theorem resolvePair_snd_id (m : Manifold) (a b : PhysicsBody) :
    (resolvePair m a b).2.id = b.id := by
  simp only [resolvePair]
  exact foldl_resolveContact_snd_id _ _ _ _ _ _ _

theorem resolvePair_fst_of_eff_zero (m : Manifold) (a b : PhysicsBody)
    (h : effInverseMass a = 0) : (resolvePair m a b).1 = a := by
  simp only [resolvePair]
  exact foldl_resolveContact_fst_of_eff_zero _ _ _ _ _ _ _ h

theorem resolvePair_snd_of_eff_zero (m : Manifold) (a b : PhysicsBody)
    (h : effInverseMass b = 0) : (resolvePair m a b).2 = b := by
  simp only [resolvePair]
  exact foldl_resolveContact_snd_of_eff_zero _ _ _ _ _ _ _ h

theorem findBody_some_id {bodies : List PhysicsBody} {i : ℕ} {a : PhysicsBody}
    (h : findBody bodies i = some a) : a.id = i := by
  have := List.find?_some h
  simpa using this

theorem findBody_some_mem {bodies : List PhysicsBody} {i : ℕ} {a : PhysicsBody}
    (h : findBody bodies i = some a) : a ∈ bodies :=
  List.mem_of_find?_eq_some h

theorem resolveManifold_ids (bodies : List PhysicsBody) (m : Manifold) :
    (resolveManifold bodies m).map PhysicsBody.id = bodies.map PhysicsBody.id := by
  rw [resolveManifold]
  split
  case h_1 a b ha hb =>
    rw [List.map_map]
    refine List.map_congr_left ?_
    intro c _
    show ((if c.id = m.idA then (resolvePair m a b).1
          else if c.id = m.idB then (resolvePair m a b).2 else c)).id = c.id
    by_cases hA : c.id = m.idA
    · rw [if_pos hA, resolvePair_fst_id, findBody_some_id ha, hA]
    · rw [if_neg hA]
      by_cases hB : c.id = m.idB
      · rw [if_pos hB, resolvePair_snd_id, findBody_some_id hb, hB]
      · rw [if_neg hB]
  case h_2 => rfl

theorem resolveManifold_fixes (bodies : List PhysicsBody) (m : Manifold)
    (hnd : bodyIdsNodup bodies) {i : ℕ} (hi : i < bodies.length)
    (h0 : effInverseMass bodies[i] = 0) :
    (resolveManifold bodies m)[i]? = some bodies[i] := by
  rw [resolveManifold]
  split
  case h_1 a b ha hb =>
    rw [List.getElem?_map, List.getElem?_eq_getElem hi]
    show some _ = some _
    congr 1
    show (if bodies[i].id = m.idA then (resolvePair m a b).1
          else if bodies[i].id = m.idB then (resolvePair m a b).2
          else bodies[i]) = bodies[i]
    have hmem : bodies[i] ∈ bodies := List.getElem_mem hi
    by_cases hA : bodies[i].id = m.idA
    · rw [if_pos hA]
      have haeq : a = bodies[i] :=
        List.inj_on_of_nodup_map hnd (findBody_some_mem ha) hmem
          (by rw [findBody_some_id ha, hA])
      rw [haeq]
      exact resolvePair_fst_of_eff_zero _ _ _ h0
    · rw [if_neg hA]
      by_cases hB : bodies[i].id = m.idB
      · rw [if_pos hB]
        have hbeq : b = bodies[i] :=
          List.inj_on_of_nodup_map hnd (findBody_some_mem hb) hmem
            (by rw [findBody_some_id hb, hB])
        rw [hbeq]
        exact resolvePair_snd_of_eff_zero _ _ _ h0
      · rw [if_neg hB]
  case h_2 => exact List.getElem?_eq_getElem hi

theorem resolveAll_ids (ms : List Manifold) (bodies : List PhysicsBody) :
    (resolveAll ms bodies).map PhysicsBody.id = bodies.map PhysicsBody.id := by
  induction ms generalizing bodies with
  | nil => rfl
  | cons m ms ih =>
      show (resolveAll ms (resolveManifold bodies m)).map PhysicsBody.id = _
      rw [ih, resolveManifold_ids]

theorem resolveAll_fixes (ms : List Manifold) (bodies : List PhysicsBody)
    (hnd : bodyIdsNodup bodies) {i : ℕ} (hi : i < bodies.length)
    (h0 : effInverseMass bodies[i] = 0) :
    (resolveAll ms bodies)[i]? = some bodies[i] := by
  induction ms generalizing bodies with
  | nil => exact List.getElem?_eq_getElem hi
  | cons m ms ih =>
      have hfix := resolveManifold_fixes bodies m hnd hi h0
      obtain ⟨hi2, heq⟩ := List.getElem?_eq_some_iff.1 hfix
      have hnd2 : bodyIdsNodup (resolveManifold bodies m) := by
        rw [bodyIdsNodup, resolveManifold_ids]
        exact hnd
      have h02 : effInverseMass ((resolveManifold bodies m)[i]) = 0 := by
        rw [heq]
        exact h0
      have hrec := ih (resolveManifold bodies m) hnd2 hi2 h02
      show (resolveAll ms (resolveManifold bodies m))[i]? = _
      rw [hrec, heq]

theorem integrateBody_id (g : Vector2) (dt : ℚ) (b : PhysicsBody) :
    (integrateBody g dt b).id = b.id := by
  rw [integrateBody]
  split <;> rfl

theorem integrateBody_of_eff_zero (g : Vector2) (dt : ℚ) (b : PhysicsBody)
    (h : effInverseMass b = 0) : integrateBody g dt b = b := by
  rw [integrateBody]
  by_cases hc : b.enabled = true ∧ b.inverseMass ≠ 0
  · exfalso
    rw [effInverseMass, if_pos hc.1] at h
    exact hc.2 h
  · rw [if_neg hc]

theorem subStepBodies_ids (g : Vector2) (bodies : List PhysicsBody) :
    (subStepBodies g bodies).map PhysicsBody.id = bodies.map PhysicsBody.id := by
  rw [subStepBodies, List.map_map]
  calc (resolveAll (detectAll bodies) bodies).map
        (PhysicsBody.id ∘ integrateBody g fixedSubStep)
      = (resolveAll (detectAll bodies) bodies).map PhysicsBody.id :=
        List.map_congr_left (fun a _ => integrateBody_id g fixedSubStep a)
    _ = bodies.map PhysicsBody.id := resolveAll_ids _ _

theorem subStepBodies_fixes (g : Vector2) (bodies : List PhysicsBody)
    (hnd : bodyIdsNodup bodies) {i : ℕ} (hi : i < bodies.length)
    (h0 : effInverseMass bodies[i] = 0) :
    (subStepBodies g bodies)[i]? = some bodies[i] := by
  rw [subStepBodies, List.getElem?_map, resolveAll_fixes (detectAll bodies) bodies hnd hi h0]
  show some (integrateBody g fixedSubStep bodies[i]) = _
  rw [integrateBody_of_eff_zero _ _ _ h0]

theorem subStep_bodies (w : PhysicsWorld) :
    w.subStep.bodies = subStepBodies w.gravity w.bodies := rfl

theorem runSubSteps_ids (n : ℕ) (w : PhysicsWorld) :
    (runSubSteps n w).bodies.map PhysicsBody.id = w.bodies.map PhysicsBody.id := by
  induction n generalizing w with
  | zero => rfl
  | succ n ih =>
      show (runSubSteps n w.subStep).bodies.map PhysicsBody.id = _
      rw [ih, subStep_bodies, subStepBodies_ids]

theorem runSubSteps_nodup (n : ℕ) (w : PhysicsWorld) (hnd : bodyIdsNodup w.bodies) :
    bodyIdsNodup (runSubSteps n w).bodies := by
  rw [bodyIdsNodup, runSubSteps_ids]
  exact hnd

theorem runSubSteps_fixes (n : ℕ) (w : PhysicsWorld) (hnd : bodyIdsNodup w.bodies)
    {i : ℕ} (hi : i < w.bodies.length) (h0 : effInverseMass (w.bodies[i]) = 0) :
    (runSubSteps n w).bodies[i]? = some w.bodies[i] := by
  induction n generalizing w with
  | zero => exact List.getElem?_eq_getElem hi
  | succ n ih =>
      have hfix : w.subStep.bodies[i]? = some w.bodies[i] := by
        rw [subStep_bodies]
        exact subStepBodies_fixes w.gravity w.bodies hnd hi h0
      obtain ⟨hi2, heq⟩ := List.getElem?_eq_some_iff.1 hfix
      have hnd2 : bodyIdsNodup w.subStep.bodies := by
        rw [bodyIdsNodup, subStep_bodies, subStepBodies_ids]
        exact hnd
      have h02 : effInverseMass (w.subStep.bodies[i]) = 0 := by
        rw [heq]
        exact h0
      have hrec := ih w.subStep hnd2 hi2 h02
      show (runSubSteps n w.subStep).bodies[i]? = _
      rw [hrec, heq]

/-! ## Detection facts -/

theorem mem_allPairs {α : Type} {p : α × α} :
    ∀ {l : List α}, p ∈ allPairs l → p.1 ∈ l ∧ p.2 ∈ l
  | [], hp => by simp [allPairs] at hp
  | x :: xs, hp => by
      rw [allPairs, List.mem_append] at hp
      rcases hp with h | h
      · rcases List.mem_map.1 h with ⟨y, hy, hxy⟩
        rw [← hxy]
        exact ⟨List.mem_cons_self x xs, List.mem_cons_of_mem x hy⟩
      · rcases mem_allPairs h with ⟨h1, h2⟩
        exact ⟨List.mem_cons_of_mem x h1, List.mem_cons_of_mem x h2⟩

theorem mem_detectAll {bodies : List PhysicsBody} {m : Manifold}
    (h : m ∈ detectAll bodies) :
    ∃ a, a ∈ bodies ∧ ∃ b, b ∈ bodies ∧ detectPair a b = some m := by
  rw [detectAll] at h
  rcases List.mem_filterMap.1 h with ⟨p, hp, hdp⟩
  rcases mem_allPairs hp with ⟨h1, h2⟩
  exact ⟨p.1, h1, p.2, h2, hdp⟩

theorem detectPair_some {a b : PhysicsBody} {m : Manifold}
    (h : detectPair a b = some m) :
    m.idA = a.id ∧ m.idB = b.id ∧
      ¬ (effInverseMass a = 0 ∧ effInverseMass b = 0) := by
  rw [detectPair] at h
  by_cases hc : effInverseMass a = 0 ∧ effInverseMass b = 0
  · rw [if_pos hc] at h
    cases h
  · rw [if_neg hc] at h
    by_cases hov : shapesOverlap a b = true
    · rw [if_pos hov] at h
      injection h with h'
      rw [← h']
      exact ⟨rfl, rfl, hc⟩
    · rw [if_neg hov] at h
      cases h

theorem detectPair_isSome_of (a b : PhysicsBody)
    (ha : ¬ (effInverseMass a = 0 ∧ effInverseMass b = 0))
    (hov : shapesOverlap a b = true) : (detectPair a b).isSome = true := by
  rw [detectPair, if_neg ha, if_pos hov]
  rfl

/-- C1: a body whose `enabled` flag is false is left completely unchanged
by a simulation sub-step — it is excluded from integration and force
application, and neither impulses nor positional correction move it (so in
particular its position, orientation, linear velocity and angular velocity
are unchanged) — yet collision detection still considers it: a pair of an
enabled dynamic body and an overlapping disabled body is never skipped and
produces a contact manifold, against which the dynamic body is resolved
while the disabled body acts as an immovable obstacle. -/
theorem disabled_body_immovable_but_collidable (w : PhysicsWorld)
    (hnd : bodyIdsNodup w.bodies) (i : ℕ) (hi : i < w.bodies.length)
    (hdis : (w.bodies[i]).enabled = false) :
    w.subStep.bodies[i]? = some w.bodies[i] ∧
    (∀ a : PhysicsBody, a ∈ w.bodies → a.enabled = true → a.inverseMass ≠ 0 →
      (shapesOverlap a w.bodies[i] = true →
        (detectPair a w.bodies[i]).isSome = true) ∧
      (shapesOverlap w.bodies[i] a = true →
        (detectPair w.bodies[i] a).isSome = true)) := by
  have h0 : effInverseMass w.bodies[i] = 0 := eff_zero_of_disabled hdis
  constructor
  · rw [subStep_bodies]
    exact subStepBodies_fixes w.gravity w.bodies hnd hi h0
  · intro a _ hen hm
    have ha : effInverseMass a ≠ 0 := by
      rw [effInverseMass, if_pos hen]
      exact hm
    exact ⟨fun hov => detectPair_isSome_of _ _ (fun hc => ha hc.1) hov,
           fun hov => detectPair_isSome_of _ _ (fun hc => ha hc.2) hov⟩

/-- Witness for C1: a concrete world with an enabled dynamic circle
overlapping a disabled circle — the overlap indeed holds, the disabled body
is bit-for-bit unchanged by the sub-step, and the pair is detected. -/
theorem disabled_body_immovable_but_collidable_witness :
    shapesOverlap sampleDynamic sampleDisabled = true ∧
    (sampleWorld.subStep.bodies[1]? = some sampleDisabled ∧
      (∀ a : PhysicsBody, a ∈ sampleWorld.bodies → a.enabled = true →
        a.inverseMass ≠ 0 →
        (shapesOverlap a sampleDisabled = true →
          (detectPair a sampleDisabled).isSome = true) ∧
        (shapesOverlap sampleDisabled a = true →
          (detectPair sampleDisabled a).isSome = true))) :=
  ⟨by norm_num [shapesOverlap, sampleDynamic, sampleDisabled, mkBody,
      Vector2.lenSq, Vector2.sub_x, Vector2.sub_y],
   disabled_body_immovable_but_collidable sampleWorld (by decide) 1 (by decide) rfl⟩

/-- C5: for a pair of bodies whose stored inverse masses are both zero, no
contact manifold is ever produced for that pair in any sub-step (the
detector skips immovable pairs), and both bodies — in particular their
linear and angular velocities — are completely unchanged across any number
of simulation sub-steps. -/
theorem immovable_pair_skipped_forever (w : PhysicsWorld)
    (hnd : bodyIdsNodup w.bodies) (i j : ℕ) (hi : i < w.bodies.length)
    (hj : j < w.bodies.length) (hmi : (w.bodies[i]).inverseMass = 0)
    (hmj : (w.bodies[j]).inverseMass = 0) (n : ℕ) :
    (∀ m ∈ detectAll ((runSubSteps n w).bodies),
        ¬ (m.idA = (w.bodies[i]).id ∧ m.idB = (w.bodies[j]).id) ∧
        ¬ (m.idA = (w.bodies[j]).id ∧ m.idB = (w.bodies[i]).id)) ∧
    (runSubSteps n w).bodies[i]? = some w.bodies[i] ∧
    (runSubSteps n w).bodies[j]? = some w.bodies[j] := by
  have h0i : effInverseMass w.bodies[i] = 0 := eff_zero_of_inverseMass_zero hmi
  have h0j : effInverseMass w.bodies[j] = 0 := eff_zero_of_inverseMass_zero hmj
  have hfixi := runSubSteps_fixes n w hnd hi h0i
  have hfixj := runSubSteps_fixes n w hnd hj h0j
  have hndL : bodyIdsNodup (runSubSteps n w).bodies := runSubSteps_nodup n w hnd
  have hmemi : w.bodies[i] ∈ (runSubSteps n w).bodies := by
    obtain ⟨h', heq⟩ := List.getElem?_eq_some_iff.1 hfixi
    rw [← heq]
    exact List.getElem_mem h'
  have hmemj : w.bodies[j] ∈ (runSubSteps n w).bodies := by
    obtain ⟨h', heq⟩ := List.getElem?_eq_some_iff.1 hfixj
    rw [← heq]
    exact List.getElem_mem h'
  refine ⟨?_, hfixi, hfixj⟩
  intro m hm
  rcases mem_detectAll hm with ⟨a, haL, b, hbL, hdp⟩
  rcases detectPair_some hdp with ⟨hidA, hidB, hne⟩
  constructor
  · rintro ⟨hA, hB⟩
    have haeq : a = w.bodies[i] :=
      List.inj_on_of_nodup_map hndL haL hmemi (hidA ▸ hA)
    have hbeq : b = w.bodies[j] :=
      List.inj_on_of_nodup_map hndL hbL hmemj (hidB ▸ hB)
    exact hne ⟨haeq ▸ h0i, hbeq ▸ h0j⟩
  · rintro ⟨hA, hB⟩
    have haeq : a = w.bodies[j] :=
      List.inj_on_of_nodup_map hndL haL hmemj (hidA ▸ hA)
    have hbeq : b = w.bodies[i] :=
      List.inj_on_of_nodup_map hndL hbL hmemi (hidB ▸ hB)
    exact hne ⟨haeq ▸ h0j, hbeq ▸ h0i⟩

/-- Witness for C5: two concrete overlapping zero-inverse-mass circle
bodies — they do overlap, yet after a sub-step no manifold names the pair
and both bodies are unchanged. -/
theorem immovable_pair_skipped_forever_witness :
    shapesOverlap sampleStaticA sampleStaticB = true ∧
    ((∀ m ∈ detectAll ((runSubSteps 1 sampleStaticWorld).bodies),
        ¬ (m.idA = sampleStaticA.id ∧ m.idB = sampleStaticB.id) ∧
        ¬ (m.idA = sampleStaticB.id ∧ m.idB = sampleStaticA.id)) ∧
      (runSubSteps 1 sampleStaticWorld).bodies[0]? = some sampleStaticA ∧
      (runSubSteps 1 sampleStaticWorld).bodies[1]? = some sampleStaticB) :=
  ⟨by norm_num [shapesOverlap, sampleStaticA, sampleStaticB, mkBody,
      Vector2.lenSq, Vector2.sub_x, Vector2.sub_y],
   immovable_pair_skipped_forever sampleStaticWorld (by decide) 0 1 (by decide)
     (by decide)
     (by
       show sampleStaticA.inverseMass = 0
       norm_num [sampleStaticA, mkBody, computeMassProperties, safeInv, ratPi])
     (by
       show sampleStaticB.inverseMass = 0
       norm_num [sampleStaticB, mkBody, computeMassProperties, safeInv, ratPi]) 1⟩

/-! ## Registry round-trip facts -/

theorem findBody_none (bodies : List PhysicsBody) (i : ℕ)
    (hno : ∀ b ∈ bodies, b.id ≠ i) : findBody bodies i = none := by
  rw [findBody, List.find?_eq_none]
  intro b hb
  simp [hno b hb]

theorem findBody_append_single (bodies : List PhysicsBody) (nb : PhysicsBody)
    (i : ℕ) (hno : ∀ b ∈ bodies, b.id ≠ i) (hnb : nb.id = i) :
    findBody (bodies ++ [nb]) i = some nb := by
  rw [findBody, List.find?_append]
  have h1 : bodies.find? (fun b => b.id == i) = none := findBody_none bodies i hno
  rw [h1]
  simp [List.find?, hnb]

theorem filter_append_single (bodies : List PhysicsBody) (nb : PhysicsBody)
    (i : ℕ) (hno : ∀ b ∈ bodies, b.id ≠ i) (hnb : nb.id = i) :
    (bodies ++ [nb]).filter (fun b => b.id != i) = bodies := by
  rw [List.filter_append]
  have h1 : bodies.filter (fun b => b.id != i) = bodies :=
    List.filter_eq_self.2 (fun b hb => by simp [hno b hb])
  have h2 : [nb].filter (fun b => b.id != i) = [] := by
    simp [List.filter, hnb]
  rw [h1, h2, List.append_nil]

theorem addBody_roundTrips (w : PhysicsWorld) (pos : Vector2) (s : Shape) (d : ℚ)
    (hids : ∀ b ∈ w.bodies, b.id < w.nextId) :
    roundTrips w (Except.ok (w.addBody pos s d)) := by
  have hno : ∀ b ∈ w.bodies, b.id ≠ w.nextId := fun b hb => Nat.ne_of_lt (hids b hb)
  have hnb : (mkBody w.nextId pos s d).id = w.nextId := rfl
  refine ⟨(w.addBody pos s d).1, { w with nextId := w.nextId + 1 },
          rfl, ?_, rfl, rfl, ?_, hno, Nat.lt_succ_self _⟩
  · have hfind : findBody (w.addBody pos s d).1.bodies w.nextId =
        some (mkBody w.nextId pos s d) :=
      findBody_append_single w.bodies (mkBody w.nextId pos s d) w.nextId hno hnb
    have hfil : (w.addBody pos s d).1.bodies.filter (fun b => b.id != w.nextId) =
        w.bodies :=
      filter_append_single w.bodies (mkBody w.nextId pos s d) w.nextId hno hnb
    rw [destroyPhysicsBody, hfind, hfil]
    rfl
  · have hfind0 : findBody ({ w with nextId := w.nextId + 1 } : PhysicsWorld).bodies
        w.nextId = none := findBody_none w.bodies w.nextId hno
    rw [getPhysicsBody, hfind0]

/-- C4: with free capacity and a registry whose live identities are all
below the allocation counter, creating a body through any of the three
factories and immediately destroying it restores exactly the prior
occupancy (indeed the prior body list); looking the destroyed identity up
afterwards fails with InvalidIdentity, no live body carries that identity,
and future identities are strictly larger, so the stale identity never
aliases another live or future body. -/
theorem create_destroy_roundtrip (w : PhysicsWorld)
    (hcap : w.bodies.length < w.maxBodies)
    (hids : ∀ b ∈ w.bodies, b.id < w.nextId) :
    (∀ pos r d, 0 < r → roundTrips w (createPhysicsBodyCircle w pos r d)) ∧
    (∀ pos vs d, ¬ vs.length < 3 → roundTrips w (createPhysicsBodyPolygon w pos vs d)) ∧
    (∀ pos wd ht d, 0 < wd → 0 < ht →
      roundTrips w (createPhysicsBodyRectangle w pos wd ht d)) := by
  have hle : ¬ w.maxBodies ≤ w.bodies.length := Nat.not_le.2 hcap
  refine ⟨fun pos r d hr => ?_, fun pos vs d hvs => ?_, fun pos wd ht d hwd hht => ?_⟩
  · rw [createPhysicsBodyCircle, if_neg hle, if_neg (not_le.2 hr)]
    exact addBody_roundTrips w pos _ d hids
  · rw [createPhysicsBodyPolygon, if_neg hle, if_neg hvs]
    exact addBody_roundTrips w pos _ d hids
  · rw [createPhysicsBodyRectangle, if_neg hle, if_neg (by push_neg; exact ⟨hwd, hht⟩)]
    exact addBody_roundTrips w pos _ d hids

/-- Witness for C4 at a concrete registry with one live body and free
capacity, for each of the three factories. -/
theorem create_destroy_roundtrip_witness :
    roundTrips sampleFreeWorld
      (createPhysicsBodyCircle sampleFreeWorld ⟨3, 3⟩ 1 1) ∧
    roundTrips sampleFreeWorld
      (createPhysicsBodyPolygon sampleFreeWorld ⟨3, 3⟩ (rectangleVertices 2 2) 1) ∧
    roundTrips sampleFreeWorld
      (createPhysicsBodyRectangle sampleFreeWorld ⟨3, 3⟩ 2 2 1) := by
  have h := create_destroy_roundtrip sampleFreeWorld (by decide) (by decide)
  exact ⟨h.1 ⟨3, 3⟩ 1 1 (by norm_num),
         h.2.1 ⟨3, 3⟩ (rectangleVertices 2 2) 1 (by decide),
         h.2.2 ⟨3, 3⟩ 2 2 1 (by norm_num) (by norm_num)⟩

end Physac
